import Mathlib

/-
Verification development for the gala patch engine.

The definitions below are a shallow embedding of `patches.py` and
`patches/dmg_patches.py`.  Byte buffers (`bytearray`) are modelled as
`List Nat`; CPython slice reads and slice assignments are modelled
exactly (including negative-index normalisation and end-of-buffer
clamping/extension).  The external collaborators (capstone disassembly,
the assembler, the Mach-O parser, hdiutil) are parameters of the
embedding: theorems quantify over them, witnesses instantiate them with
small concrete functions.
-/

/-- Normalisation of a slice bound, as CPython performs it for a sequence of
length `len`: a negative index counts from the end (clamped at 0), a
non-negative index is clamped at `len`. -/
def pyIndex (len : Nat) (i : Int) : Nat :=
  if i < 0 then ((len : Int) + i).toNat else min i.toNat len

/-- Slice read `data[a:b]`, CPython semantics. -/
def pySliceGet (data : List Nat) (a b : Int) : List Nat :=
  let a' := pyIndex data.length a
  let b' := pyIndex data.length b
  (data.drop a').take (b' - a')

/-- Slice assignment `data[a:b] = xs`, CPython semantics for a `bytearray`
(the replaced range may be shorter than `xs`, in which case the buffer
grows). -/
def pySliceSet (data : List Nat) (a b : Int) (xs : List Nat) : List Nat :=
  let a' := pyIndex data.length a
  let b' := max a' (pyIndex data.length b)
  data.take a' ++ xs ++ data.drop b'

/-- An in-range overwrite of `xs.length` bytes at offset `k`; the form
`pySliceSet` takes when the whole write lands inside the buffer. -/
def writeAt (data : List Nat) (k : Nat) (xs : List Nat) : List Nat :=
  data.take k ++ xs ++ data.drop (k + xs.length)

/-- A decoded instruction as returned by the capstone disassembler: the
fields of a `CsInsn` that `patches.py` reads (`mnemonic` and `op_str`). -/
structure CsInsn where
  mnemonic : String
  opStr : String
deriving DecidableEq

/-- A symbolic instruction (`Instr` from the `assemble` module): the data
`patches.py` reads from it, namely its canonical text `value` and its
format's `typical_size`. -/
structure Instr where
  value : String
  typicalSize : Nat
deriving DecidableEq

/-- Canonical text of a decoded instruction: `mnemonic` alone when the
operand string is empty, else `mnemonic ++ " " ++ operands` (spec section 6;
this is the rule `patches.py` lines 126-129 apply to freshly assembled
replacement instructions). -/
def canonText (m o : String) : String :=
  if o = "" then m else m ++ " " ++ o

/-- What the embedding keeps of a successfully parsed Mach-O slice: the
container's own virtual-address-to-file-offset map
(`file_offset_for_virtual_address`). -/
structure MachoInfo where
  fileOffsetForVA : Nat → Int

/-- Resolution of a virtual address to a file offset (spec section 4.1):
the container's own map when structured parsing succeeded, else the raw
rule `address - base`. -/
def resolveOffset (macho : Option MachoInfo) (address base : Nat) : Int :=
  match macho with
  | some m => m.fileOffsetForVA address
  | none => (address : Int) - (base : Int)

/-- The external collaborators a patch application runs against:
`dis bytes addr` is `cs.disasm(bytes, addr)`, `asm addr i` is
`assemble(addr, i)`, and `macho` is the outcome of parsing the container
at `decrypted_image_path` (`none` when the magic is unsupported or no
armv7 slice exists). -/
structure ApplyEnv where
  dis : List Nat → Nat → List CsInsn
  asm : Nat → Instr → List Nat
  macho : Option MachoInfo

/-- The distinguishable `ValueError`s raised by `patches.py`, one
constructor per raise site, carrying the data the message reports. -/
inductive PatchError where
  | verificationCountMismatch (expected actual : Nat)
  | verificationTextMismatch (expected actual : String)
  | assemblyCountMismatch
  | assemblyTextMismatch (expected actual : String)
  | lengthMismatch (expected actual : Nat)
  | invalidOffset (offset : Int)
deriving DecidableEq

/-- Pre-image text verification (patches.py lines 108-111): each
disassembled instruction is rendered as `mnemonic ++ " " ++ op_str`
(unconditionally, even for an empty operand string) and compared with the
declared original's text; the first mismatch is reported. -/
def verifyOrig : List CsInsn → List Instr → Option PatchError
  | a :: as, e :: es =>
    if a.mnemonic ++ " " ++ a.opStr = e.value then verifyOrig as es
    else some (PatchError.verificationTextMismatch e.value (a.mnemonic ++ " " ++ a.opStr))
  | _, _ => none

/-- The replacement loop of `InstructionPatch.apply` (patches.py lines
116-139): assemble each replacement at the cursor address, require the
bytes to decode back to exactly one instruction whose canonical text is
the declared text, write the bytes at the cursor offset, advance both
cursors and the accumulated length.  Returns the accumulated
`patch_length` on success, and in every case the buffer state at the
moment control returns. -/
def applyReplacements (env : ApplyEnv) :
    List Instr → Nat → Int → Nat → List Nat → (Except PatchError Nat) × List Nat
  | [], _, _, pl, data => (Except.ok pl, data)
  | instr :: rest, addr, off, pl, data =>
    let assembled := env.asm addr instr
    let n := assembled.length
    match env.dis assembled addr with
    | [d] =>
      if canonText d.mnemonic d.opStr = instr.value then
        applyReplacements env rest (addr + n) (off + (n : Int)) (pl + n)
          (pySliceSet data off (off + (n : Int)) assembled)
      else
        (Except.error (PatchError.assemblyTextMismatch instr.value (canonText d.mnemonic d.opStr)), data)
    | _ => (Except.error PatchError.assemblyCountMismatch, data)

/-- A structured instruction-granularity patch (`InstructionPatch`). -/
structure InstructionPatch where
  functionName : String
  address : Nat
  origInstructions : List Instr
  patchedInstructions : List Instr
  expectedLength : Option Nat

/-- The instructions the pre-image region actually disassembles to
(patches.py lines 88, 102-103): read `region_size` bytes at the resolved
offset and disassemble them at the patch address; the disassembler is
only invoked when the declared original list is non-empty. -/
def actualOrigInstructions (env : ApplyEnv) (p : InstructionPatch) (base : Nat)
    (data : List Nat) : List CsInsn :=
  let regionSize := (p.origInstructions.map Instr.typicalSize).sum
  let off := resolveOffset env.macho p.address base
  let instrBytes := pySliceGet data off (off + (regionSize : Int))
  if p.origInstructions.length ≠ 0 then env.dis instrBytes p.address else []

/-- The whole of `InstructionPatch.apply` (patches.py lines 75-142):
resolve the offset, verify the pre-image (count, then per-instruction
text), run the replacement loop, and finally apply the declared-length
check — which, mirroring the Python truthiness test
`if self.expected_length and ...`, is skipped when the declared length is
absent or zero.  The second component is the buffer state when control
returns (the `bytearray` is mutated in place, so an error leaves the
writes made so far). -/
def InstructionPatch.apply (env : ApplyEnv) (p : InstructionPatch) (base : Nat)
    (data : List Nat) : (Except PatchError Unit) × List Nat :=
  let off := resolveOffset env.macho p.address base
  let actual := actualOrigInstructions env p base data
  if actual.length ≠ p.origInstructions.length then
    (Except.error (PatchError.verificationCountMismatch p.origInstructions.length actual.length), data)
  else
    match verifyOrig actual p.origInstructions with
    | some e => (Except.error e, data)
    | none =>
      match applyReplacements env p.patchedInstructions p.address off 0 data with
      | (Except.error e, d2) => (Except.error e, d2)
      | (Except.ok pl, d2) =>
        match p.expectedLength with
        | some el =>
          if el ≠ 0 ∧ pl ≠ el then (Except.error (PatchError.lengthMismatch el pl), d2)
          else (Except.ok (), d2)
        | none => (Except.ok (), d2)

/-- An unstructured byte patch (`BlobPatch`). -/
structure BlobPatch where
  address : Nat
  newContent : List Nat

/-- The whole of `BlobPatch.apply` (patches.py lines 153-172): the
structured offset is computed when the container parses as a Mach-O, but
line 167 then unconditionally reassigns `patch_file_offset` to
`address - base`, so the raw rule is always the offset written to; the
bounds check is `offset < 0 or offset >= len(buffer)`, after which the
slice assignment is performed (which may extend the buffer when the
payload runs past its end). -/
def BlobPatch.apply (env : ApplyEnv) (p : BlobPatch) (base : Nat)
    (data : List Nat) : (Except PatchError Unit) × List Nat :=
  let structuredOffset := resolveOffset env.macho p.address base
  let off : Int := (p.address : Int) - (base : Int)
  if off < 0 ∨ (data.length : Int) ≤ off then
    (Except.error (PatchError.invalidOffset off), data)
  else
    (Except.ok (), pySliceSet data off (off + (p.newContent.length : Int)) p.newContent)

/-- The `Patch` hierarchy as a sum over the variants the claims concern:
instruction patches, blob patches, and (possibly nested) named patch
sets. -/
inductive Patch where
  | instruction (p : InstructionPatch)
  | blob (p : BlobPatch)
  | patchSet (name : String) (patches : List Patch)

mutual

/-- Dispatch of `Patch.apply` over the variants; a `PatchSet` applies its
members (patches.py lines 197-200). -/
def Patch.applyP (env : ApplyEnv) (base : Nat) : Patch → List Nat → (Except PatchError Unit) × List Nat
  | Patch.instruction p, data => InstructionPatch.apply env p base data
  | Patch.blob p, data => BlobPatch.apply env p base data
  | Patch.patchSet _ ps, data => Patch.applyList env base ps data

/-- The member loop of `PatchSet.apply` (patches.py lines 199-200): each
member is applied in declaration order to the same buffer, with the same
base address and container; the first raised error propagates and stops
the iteration, leaving the buffer as mutated so far. -/
def Patch.applyList (env : ApplyEnv) (base : Nat) : List Patch → List Nat → (Except PatchError Unit) × List Nat
  | [], data => (Except.ok (), data)
  | p :: rest, data =>
    match Patch.applyP env base p data with
    | (Except.ok _, d2) => Patch.applyList env base rest d2
    | (Except.error e, d2) => (Except.error e, d2)

end

/-- A filesystem patch (`DmgPatch`): its effect is a fallible transformation
of the mounted filesystem's state, which the embedding identifies with the
scratch disk image's byte content. -/
structure DmgPatch where
  run : List Nat → Except String (List Nat)

/-- The externally observable outcomes of the hdiutil invocations a
`DmgPatchSet.apply` performs: whether `hdiutil resize` and
`hdiutil attach` succeed. -/
structure DmgEnv where
  resizeOk : Bool
  attachOk : Bool

/-- Errors escaping `DmgPatchSet.apply`: a failed resize, a failed mount,
or a member filesystem patch's own failure, propagated unchanged. -/
inductive DmgError where
  | resizeError
  | mountError
  | patchFailed (msg : String)
deriving DecidableEq

/-- Observable mount-lifecycle events, in the order they occur. -/
inductive DmgEvent where
  | attach
  | patchApplied (i : Nat)
  | detach
deriving DecidableEq

/-- The member loop inside the mount scope (dmg_patches.py lines 62-63):
apply each filesystem patch in order to the mounted tree; a failure stops
the iteration and propagates.  Returns the events recorded so far. -/
def runDmgPatches : List DmgPatch → List Nat → Nat → (Except DmgError (List Nat)) × List DmgEvent
  | [], fs, _ => (Except.ok fs, [])
  | p :: rest, fs, i =>
    match p.run fs with
    | Except.ok fs2 =>
      let r := runDmgPatches rest fs2 (i + 1)
      (r.1, DmgEvent.patchApplied i :: r.2)
    | Except.error msg => (Except.error (DmgError.patchFailed msg), [])

/-- A filesystem patch set (`DmgPatchSet`). -/
structure DmgPatchSet where
  patches : List DmgPatch

/-- The whole of `DmgPatchSet.apply` (dmg_patches.py lines 28-64) together
with `_mount_dmg` (lines 66-94): write the buffer to a scratch file,
resize it (a failure raises before any mount), attach it (a failure
raises before the scope's try block, so no detach is attempted and the
buffer is untouched); once attached, apply the member patches in order
inside the scope, detach in the `finally` block on both the normal and
the exceptional exit, and only on a normal exit of the scope overwrite
the caller's buffer wholesale with the scratch file's bytes.  Returns the
result, the buffer state when control returns, and the event trace. -/
def DmgPatchSet.apply (env : DmgEnv) (ps : DmgPatchSet) (imageData : List Nat) :
    (Except DmgError Unit) × List Nat × List DmgEvent :=
  if env.resizeOk = false then (Except.error DmgError.resizeError, imageData, [])
  else if env.attachOk = false then (Except.error DmgError.mountError, imageData, [])
  else
    let r := runDmgPatches ps.patches imageData 0
    match r.1 with
    | Except.ok fs2 => (Except.ok (), fs2, DmgEvent.attach :: r.2 ++ [DmgEvent.detach])
    | Except.error e => (Except.error e, imageData, DmgEvent.attach :: r.2 ++ [DmgEvent.detach])

/-- The bytes the replacement loop will write, in order: each replacement
assembled at its cursor address, the cursor advancing by each encoded
length. -/
def chainBytes (env : ApplyEnv) : Nat → List Instr → List Nat
  | _, [] => []
  | addr, instr :: rest =>
    let assembled := env.asm addr instr
    assembled ++ chainBytes env (addr + assembled.length) rest

/-- Decidable statement that every replacement instruction, assembled at
its cursor address, decodes back to exactly one instruction whose
canonical text is the declared text — the success condition of the
post-assembly validation in the replacement loop. -/
def replacementsOk (env : ApplyEnv) : Nat → List Instr → Bool
  | _, [] => true
  | addr, instr :: rest =>
    let assembled := env.asm addr instr
    match env.dis assembled addr with
    | [d] => canonText d.mnemonic d.opStr == instr.value &&
        replacementsOk env (addr + assembled.length) rest
    | _ => false

/-- Verification errors are the two pre-image mismatches. -/
def isVerificationError : PatchError → Prop
  | PatchError.verificationCountMismatch _ _ => True
  | PatchError.verificationTextMismatch _ _ => True
  | _ => False

/-- A result that failed with a pre-image verification error. -/
def resultIsVerificationError : (Except PatchError Unit) × List Nat → Prop
  | (Except.error e, _) => isVerificationError e
  | (Except.ok _, _) => False

/-- A small concrete disassembler used to instantiate witnesses: it decodes
a handful of fixed byte sequences. -/
def toyDis (bs : List Nat) (_a : Nat) : List CsInsn :=
  if bs = [1, 2] then [{ mnemonic := "mov", opStr := "r0, r1" }]
  else if bs = [0, 191] then [{ mnemonic := "nop", opStr := "" }]
  else if bs = [3, 4, 5, 6] then [{ mnemonic := "bl", opStr := "#0x5ff000fc" }]
  else if bs = [9, 9] then [{ mnemonic := "mov", opStr := "r0, r3" }]
  else []

/-- A small concrete assembler matching `toyDis`: assembling each supported
text yields bytes that `toyDis` decodes back to that text. -/
def toyAsm (_a : Nat) (i : Instr) : List Nat :=
  if i.value = "mov r0, r1" then [1, 2]
  else if i.value = "nop" then [0, 191]
  else if i.value = "bl #0x5ff000fc" then [3, 4, 5, 6]
  else []

/-- Concrete environment for witnesses: toy disassembler and assembler, a
raw (non-Mach-O) container. -/
def toyEnv : ApplyEnv :=
  { dis := toyDis, asm := toyAsm, macho := none }

/-- The two-byte `mov r0, r1` symbolic instruction of the toy assembler. -/
def iMov : Instr := { value := "mov r0, r1", typicalSize := 2 }

/-- The two-byte operand-less `nop` symbolic instruction. -/
def iNop : Instr := { value := "nop", typicalSize := 2 }

/-- The four-byte `bl` symbolic instruction of the toy assembler. -/
def iBl : Instr := { value := "bl #0x5ff000fc", typicalSize := 4 }

theorem pyIndex_ofNat (len k : Nat) (h : k ≤ len) : pyIndex len (k : Int) = k := by
  unfold pyIndex
  rw [if_neg (by omega)]
  rw [Int.toNat_ofNat]
  omega

theorem take_length_append (xs C : List Nat) : (xs ++ C).take xs.length = xs := by
  simpa using @List.take_append Nat xs C 0

theorem drop_length_append (xs C : List Nat) : (xs ++ C).drop xs.length = C := by
  simpa using @List.drop_append Nat xs C 0

theorem pySliceSet_in_range (data xs : List Nat) (k : Nat)
    (h : k + xs.length ≤ data.length) :
    pySliceSet data (k : Int) ((k : Int) + (xs.length : Int)) xs = writeAt data k xs := by
  have hk : k ≤ data.length := by omega
  have hkn : k + xs.length ≤ data.length := h
  have h1 : pyIndex data.length (k : Int) = k := pyIndex_ofNat _ _ hk
  have h2 : pyIndex data.length ((k : Int) + (xs.length : Int)) = k + xs.length := by
    have : ((k : Int) + (xs.length : Int)) = ((k + xs.length : Nat) : Int) := by push_cast; ring
    rw [this]
    exact pyIndex_ofNat _ _ hkn
  simp only [pySliceSet, writeAt, h1, h2]
  congr 2
  omega

theorem length_writeAt (data xs : List Nat) (k : Nat) (h : k + xs.length ≤ data.length) :
    (writeAt data k xs).length = data.length := by
  simp [writeAt]
  omega

theorem take_writeAt (data xs : List Nat) (k : Nat) (h : k ≤ data.length) :
    (writeAt data k xs).take (k + xs.length) = data.take k ++ xs := by
  have hlen : (data.take k).length = k := by simp; omega
  unfold writeAt
  rw [List.append_assoc]
  rw [show k + xs.length = (data.take k).length + xs.length by rw [hlen]]
  rw [List.take_append]
  rw [take_length_append]

theorem drop_writeAt (data xs : List Nat) (k m : Nat) (h : k ≤ data.length)
    (hm : k + xs.length ≤ m) :
    (writeAt data k xs).drop m = data.drop m := by
  have hlen : (data.take k).length = k := by simp; omega
  unfold writeAt
  rw [List.append_assoc]
  rw [show m = (data.take k).length + (m - k) by omega]
  rw [List.drop_append]
  rw [show m - k = xs.length + (m - k - xs.length) by omega]
  rw [List.drop_append]
  rw [List.drop_drop]
  congr 1
  omega

theorem writeAt_writeAt (data bs C : List Nat) (k : Nat)
    (h : k + bs.length + C.length ≤ data.length) :
    writeAt (writeAt data k bs) (k + bs.length) C = writeAt data k (bs ++ C) := by
  have h1 : (writeAt data k bs).take (k + bs.length) = data.take k ++ bs :=
    take_writeAt data bs k (by omega)
  have h2 : (writeAt data k bs).drop (k + bs.length + C.length) =
      data.drop (k + bs.length + C.length) :=
    drop_writeAt data bs k (k + bs.length + C.length) (by omega) (by omega)
  calc writeAt (writeAt data k bs) (k + bs.length) C
      = (writeAt data k bs).take (k + bs.length) ++ C ++
          (writeAt data k bs).drop (k + bs.length + C.length) := rfl
    _ = (data.take k ++ bs) ++ C ++ data.drop (k + bs.length + C.length) := by rw [h1, h2]
    _ = data.take k ++ (bs ++ C) ++ data.drop (k + (bs ++ C).length) := by
        rw [List.length_append, ← Nat.add_assoc, List.append_assoc (data.take k) bs C]

theorem applyReplacements_eq (env : ApplyEnv) :
    ∀ (instrs : List Instr) (addr k pl : Nat) (data : List Nat),
      replacementsOk env addr instrs = true →
      k + (chainBytes env addr instrs).length ≤ data.length →
      applyReplacements env instrs addr (k : Int) pl data =
        (Except.ok (pl + (chainBytes env addr instrs).length),
          writeAt data k (chainBytes env addr instrs)) := by
  intro instrs
  induction instrs with
  | nil =>
    intro addr k pl data _ _
    simp [applyReplacements, chainBytes, writeAt, List.take_append_drop]
  | cons instr rest ih =>
    intro addr k pl data hOk hLen
    rcases hdis : env.dis (env.asm addr instr) addr with _ | ⟨d, ds⟩
    · simp [replacementsOk, hdis] at hOk
    rcases ds with _ | ⟨d2, ds2⟩
    swap
    · simp [replacementsOk, hdis] at hOk
    simp only [replacementsOk, hdis, Bool.and_eq_true, beq_iff_eq] at hOk
    obtain ⟨hcanon, hrest⟩ := hOk
    simp only [chainBytes, List.length_append] at hLen
    simp only [applyReplacements, hdis]
    rw [if_pos hcanon]
    rw [pySliceSet_in_range data (env.asm addr instr) k (by omega)]
    rw [show (k : Int) + ((env.asm addr instr).length : Int) =
        ((k + (env.asm addr instr).length : Nat) : Int) by push_cast; ring]
    rw [ih (addr + (env.asm addr instr).length) (k + (env.asm addr instr).length)
        (pl + (env.asm addr instr).length) (writeAt data k (env.asm addr instr)) hrest
        (by rw [length_writeAt data (env.asm addr instr) k (by omega)]; omega)]
    rw [writeAt_writeAt data (env.asm addr instr)
        (chainBytes env (addr + (env.asm addr instr).length) rest) k (by omega)]
    simp only [chainBytes, List.length_append]
    rw [Nat.add_assoc]

theorem ne_append_space (s : String) (h : s.data.getLast? ≠ some ' ') (m : String) :
    s ≠ m ++ " " := by
  intro hs
  apply h
  rw [hs, String.data_append]
  rw [show (" ".data) = [' '] from rfl]
  exact List.getLast?_concat _

theorem verifyOrig_mismatch :
    ∀ (as : List CsInsn) (es : List Instr),
      as.length = es.length →
      (∀ e ∈ es, ∀ m : String, e.value ≠ m ++ " ") →
      as.map (fun a => canonText a.mnemonic a.opStr) ≠ es.map Instr.value →
      ∃ x y, verifyOrig as es = some (PatchError.verificationTextMismatch x y) := by
  intro as
  induction as with
  | nil =>
    intro es hlen _ hmis
    cases es with
    | nil => simp at hmis
    | cons e es2 => simp at hlen
  | cons a as2 ih =>
    intro es hlen hwf hmis
    cases es with
    | nil => simp at hlen
    | cons e es2 =>
      by_cases hj : a.mnemonic ++ " " ++ a.opStr = e.value
      · have hops : a.opStr ≠ "" := by
          intro h0
          apply hwf e (List.mem_cons_self e es2) a.mnemonic
          rw [← hj, h0, String.append_empty]
        have hcanonEq : canonText a.mnemonic a.opStr = e.value := by
          rw [canonText, if_neg hops]
          exact hj
        have hmis2 : as2.map (fun a2 => canonText a2.mnemonic a2.opStr) ≠ es2.map Instr.value := by
          intro hEq
          apply hmis
          simp only [List.map_cons, hcanonEq, hEq]
        obtain ⟨x, y, hv⟩ :=
          ih es2 (by simpa using hlen)
            (fun e2 he2 => hwf e2 (List.mem_cons_of_mem e he2)) hmis2
        refine ⟨x, y, ?_⟩
        simp only [verifyOrig, if_pos hj]
        exact hv
      · exact ⟨e.value, a.mnemonic ++ " " ++ a.opStr, by simp only [verifyOrig, if_neg hj]⟩

theorem apply_post_verification (env : ApplyEnv) (p : InstructionPatch) (base : Nat)
    (data : List Nat) (k : Nat)
    (hCount : (actualOrigInstructions env p base data).length = p.origInstructions.length)
    (hText : verifyOrig (actualOrigInstructions env p base data) p.origInstructions = none)
    (hRep : replacementsOk env p.address p.patchedInstructions = true)
    (hOff : resolveOffset env.macho p.address base = ((k : Nat) : Int))
    (hLen : k + (chainBytes env p.address p.patchedInstructions).length ≤ data.length) :
    InstructionPatch.apply env p base data =
      (match p.expectedLength with
        | some el =>
          if el ≠ 0 ∧ (chainBytes env p.address p.patchedInstructions).length ≠ el then
            Except.error
              (PatchError.lengthMismatch el (chainBytes env p.address p.patchedInstructions).length)
          else Except.ok ()
        | none => Except.ok (),
       writeAt data k (chainBytes env p.address p.patchedInstructions)) := by
  simp only [InstructionPatch.apply]
  rw [if_neg (by omega)]
  rw [hText, hOff]
  rw [applyReplacements_eq env p.patchedInstructions p.address k 0 data hRep hLen]
  cases p.expectedLength with
  | none => simp
  | some el =>
    simp only [Nat.zero_add]
    split <;> rfl

theorem BlobPatch_apply_in_range (env : ApplyEnv) (b : BlobPatch) (base : Nat)
    (data : List Nat) (k : Nat)
    (h : (b.address : Int) - (base : Int) = ((k : Nat) : Int))
    (hk : k < data.length) (hl : k + b.newContent.length ≤ data.length) :
    BlobPatch.apply env b base data = (Except.ok (), writeAt data k b.newContent) := by
  simp only [BlobPatch.apply, h]
  rw [if_neg (by omega)]
  rw [pySliceSet_in_range data b.newContent k hl]

theorem writeAt_overlap (data xs : List Nat) (k j : Nat) (hk : k ≤ data.length)
    (hj : j < xs.length) :
    (writeAt data k xs)[k + j]? = xs[j]? := by
  have hlen : (data.take k).length = k := by simp; omega
  unfold writeAt
  rw [List.append_assoc]
  rw [List.getElem?_append_right (by omega)]
  rw [hlen]
  rw [show k + j - k = j by omega]
  rw [List.getElem?_append]
  rw [if_pos hj]

/-- C1: for every `InstructionPatch` with a non-empty declared
original-instruction list (its declared texts being canonical instruction
texts, hence never of the trailing-space form `m ++ " "`), if the bytes at
the resolved file offset disassemble to a sequence whose count or
canonical text differs from the declared originals, then `apply` raises a
verification error and the byte buffer is left completely unmodified: no
replacement byte is written before pre-image verification completes. -/
theorem C1_preimage_mismatch_fails (env : ApplyEnv) (p : InstructionPatch) (base : Nat)
    (data : List Nat)
    (hne : p.origInstructions ≠ [])
    (hwf : ∀ e ∈ p.origInstructions, ∀ m : String, e.value ≠ m ++ " ")
    (hmis : (actualOrigInstructions env p base data).map (fun a => canonText a.mnemonic a.opStr) ≠
      p.origInstructions.map Instr.value) :
    resultIsVerificationError (InstructionPatch.apply env p base data) ∧
      (InstructionPatch.apply env p base data).2 = data := by
  by_cases hc : (actualOrigInstructions env p base data).length = p.origInstructions.length
  · obtain ⟨x, y, hv⟩ := verifyOrig_mismatch _ _ hc hwf hmis
    simp only [InstructionPatch.apply]
    rw [if_neg (by omega)]
    rw [hv]
    exact ⟨trivial, rfl⟩
  · simp only [InstructionPatch.apply]
    rw [if_pos hc]
    exact ⟨trivial, rfl⟩

/-- Witness for C1: a concrete patch declaring `mov r0, r1` over bytes that
disassemble to `mov r0, r3` fails verification and returns the buffer
untouched. -/
theorem C1_witness :
    resultIsVerificationError (InstructionPatch.apply toyEnv
      { functionName := "", address := 4096, origInstructions := [iMov],
        patchedInstructions := [], expectedLength := none } 4096 [9, 9, 0, 0]) ∧
      (InstructionPatch.apply toyEnv
        { functionName := "", address := 4096, origInstructions := [iMov],
          patchedInstructions := [], expectedLength := none } 4096 [9, 9, 0, 0]).2 =
        [9, 9, 0, 0] :=
  C1_preimage_mismatch_fails toyEnv
    { functionName := "", address := 4096, origInstructions := [iMov],
      patchedInstructions := [], expectedLength := none } 4096 [9, 9, 0, 0]
    (by decide)
    (by
      intro e he m
      rw [List.mem_singleton] at he
      subst he
      exact ne_append_space _ (by decide) m)
    (by decide)

/-- Counterexample to C2 as stated: a patch whose pre-image verification
passes (empty original list) and whose single replacement assembles and
decodes back to exactly its declared text still fails, because it declares
an expected total length (5) different from the assembled total (2); so
"apply succeeds" does not hold for every patch meeting C2's hypotheses. -/
theorem C2_counterexample :
    replacementsOk toyEnv 4096 [iMov] = true ∧
      InstructionPatch.apply toyEnv
        { functionName := "", address := 4096, origInstructions := [],
          patchedInstructions := [iMov], expectedLength := some 5 } 4096 [0, 0, 0, 0] =
        (Except.error (PatchError.lengthMismatch 5 2), [1, 2, 0, 0]) :=
  ⟨rfl, rfl⟩

/-- C2 (amended): for every `InstructionPatch` whose pre-image verification
passes and each of whose replacement instructions, assembled at its cursor
address, decodes back to exactly one instruction with exactly the declared
canonical text, and whose declared expected total length — when present —
is zero or equals the total assembled length, `apply` succeeds and the
targeted region of the buffer afterwards contains the assembled bytes of
the replacements laid out contiguously in declaration order starting at
the resolved offset, both cursors having advanced by each instruction's
exact encoded length. -/
theorem C2_replacements_written (env : ApplyEnv) (p : InstructionPatch) (base : Nat)
    (data : List Nat) (k : Nat)
    (hCount : (actualOrigInstructions env p base data).length = p.origInstructions.length)
    (hText : verifyOrig (actualOrigInstructions env p base data) p.origInstructions = none)
    (hRep : replacementsOk env p.address p.patchedInstructions = true)
    (hOff : resolveOffset env.macho p.address base = ((k : Nat) : Int))
    (hLen : k + (chainBytes env p.address p.patchedInstructions).length ≤ data.length)
    (hEL : p.expectedLength = none ∨ p.expectedLength = some 0 ∨
      p.expectedLength = some (chainBytes env p.address p.patchedInstructions).length) :
    InstructionPatch.apply env p base data =
      (Except.ok (), writeAt data k (chainBytes env p.address p.patchedInstructions)) := by
  rw [apply_post_verification env p base data k hCount hText hRep hOff hLen]
  rcases hEL with h | h | h <;> rw [h] <;> simp

/-- Counterexample to C3 as stated: a `BlobPatch` whose start offset (2) is
in bounds of a 4-byte buffer but whose 4-byte payload extends past the end
does not fail — the slice assignment writes it and extends the buffer to 6
bytes, where C3 requires an out-of-bounds failure with the buffer
unmodified. -/
theorem C3_counterexample :
    BlobPatch.apply toyEnv { address := 2, newContent := [9, 9, 9, 9] } 0 [0, 0, 0, 0] =
      (Except.ok (), [0, 0, 9, 9, 9, 9]) := rfl

/-- C3 (amended): `BlobPatch.apply` fails with an invalid-offset error and
leaves the buffer unmodified exactly when the raw offset `address - base`
is negative or at least the buffer length; a payload whose start offset is
in bounds but which runs past the end of the buffer is written anyway,
extending the buffer. -/
theorem C3_bounds_check (env : ApplyEnv) (b : BlobPatch) (base : Nat) (data : List Nat)
    (h : (b.address : Int) - (base : Int) < 0 ∨
      (data.length : Int) ≤ (b.address : Int) - (base : Int)) :
    BlobPatch.apply env b base data =
      (Except.error (PatchError.invalidOffset ((b.address : Int) - (base : Int))), data) := by
  simp only [BlobPatch.apply]
  rw [if_pos h]

/-- Witness for C3 (amended): a negative resolved offset fails with the
invalid-offset error and the buffer is returned unchanged. -/
theorem C3_witness :
    BlobPatch.apply toyEnv { address := 1, newContent := [7] } 5 [0, 0] =
      (Except.error (PatchError.invalidOffset (-4)), [0, 0]) :=
  C3_bounds_check toyEnv { address := 1, newContent := [7] } 5 [0, 0] (Or.inl (by decide))

/-- C4: the code parses the container as a Mach-O and computes the
structured file offset for the virtual address, but patches.py line 167
then unconditionally reassigns the offset to `address - base`, so the
write lands at the raw-rule offset even when structured parsing succeeds:
here the container's address map answers 100 (out of bounds of the
12-byte buffer, which would have failed), yet the payload is written at
offset 8 = 10 - 2. -/
theorem C4_structured_offset_discarded :
    BlobPatch.apply
        { dis := toyDis, asm := toyAsm, macho := some { fileOffsetForVA := fun _ => 100 } }
        { address := 10, newContent := [7, 7] } 2 (List.replicate 12 0) =
      (Except.ok (), [0, 0, 0, 0, 0, 0, 0, 0, 7, 7, 0, 0]) ∧
      resolveOffset (some { fileOffsetForVA := fun _ => 100 }) 10 2 = 100 :=
  ⟨rfl, rfl⟩

/-- Counterexample to C5 as stated: a patch declaring an expected total
length of 0 whose replacement assembles to 2 bytes succeeds, because the
Python truthiness test `if self.expected_length and ...` skips the check
when the declared length is 0, where C5 requires a length-mismatch
failure. -/
theorem C5_counterexample :
    InstructionPatch.apply toyEnv
      { functionName := "", address := 4096, origInstructions := [],
        patchedInstructions := [iMov], expectedLength := some 0 } 4096 [0, 0, 0, 0] =
      (Except.ok (), [1, 2, 0, 0]) := rfl

/-- C5 (amended): for every `InstructionPatch` declaring a non-zero
expected total replacement length `L` (a declared length of 0 is treated
as undeclared and never checked), once verification and replacement
assembly succeed, `apply` succeeds exactly when the accumulated assembled
length equals `L`, and otherwise fails with a length-mismatch error
reporting expected `L` and the actual total. -/
theorem C5_length_check (env : ApplyEnv) (p : InstructionPatch) (base : Nat)
    (data : List Nat) (k L : Nat)
    (hCount : (actualOrigInstructions env p base data).length = p.origInstructions.length)
    (hText : verifyOrig (actualOrigInstructions env p base data) p.origInstructions = none)
    (hRep : replacementsOk env p.address p.patchedInstructions = true)
    (hOff : resolveOffset env.macho p.address base = ((k : Nat) : Int))
    (hLen : k + (chainBytes env p.address p.patchedInstructions).length ≤ data.length)
    (hEL : p.expectedLength = some L) (hNZ : L ≠ 0) :
    InstructionPatch.apply env p base data =
      (if (chainBytes env p.address p.patchedInstructions).length = L then Except.ok ()
       else Except.error
        (PatchError.lengthMismatch L (chainBytes env p.address p.patchedInstructions).length),
       writeAt data k (chainBytes env p.address p.patchedInstructions)) := by
  rw [apply_post_verification env p base data k hCount hText hRep hOff hLen]
  rw [hEL]
  by_cases hT : (chainBytes env p.address p.patchedInstructions).length = L
  · rw [if_pos hT]
    simp [hT]
  · rw [if_neg hT]
    simp [hNZ, hT]

/-- Witness for C5 (amended), the claim's own concrete scenario: declared
length 4 with replacements assembling to 2+2 bytes succeeds, and the same
declared length with replacements assembling to 2+4 = 6 bytes fails with
a length mismatch reporting expected 4, got 6. -/
theorem C5_witness :
    InstructionPatch.apply toyEnv
      { functionName := "", address := 4096, origInstructions := [],
        patchedInstructions := [iMov, iMov], expectedLength := some 4 } 4096
      (List.replicate 8 0) =
      (Except.ok (), [1, 2, 1, 2, 0, 0, 0, 0]) ∧
    InstructionPatch.apply toyEnv
      { functionName := "", address := 4096, origInstructions := [],
        patchedInstructions := [iMov, iBl], expectedLength := some 4 } 4096
      (List.replicate 8 0) =
      (Except.error (PatchError.lengthMismatch 4 6), [1, 2, 3, 4, 5, 6, 0, 0]) :=
  ⟨(C5_length_check toyEnv
      { functionName := "", address := 4096, origInstructions := [],
        patchedInstructions := [iMov, iMov], expectedLength := some 4 } 4096
      (List.replicate 8 0) 0 4 rfl rfl (by decide) rfl (by decide) rfl (by decide)).trans rfl,
   (C5_length_check toyEnv
      { functionName := "", address := 4096, origInstructions := [],
        patchedInstructions := [iMov, iBl], expectedLength := some 4 } 4096
      (List.replicate 8 0) 0 4 rfl rfl (by decide) rfl (by decide) rfl (by decide)).trans rfl⟩

/-- Counterexample to C6 as stated: a declared operand-less original
(`nop`) whose mnemonic matches the disassembled instruction does NOT pass
pre-image verification — the pre-image comparison always renders the
disassembly as `mnemonic ++ " " ++ op_str`, yielding `"nop "` against the
declared `"nop"`, and apply fails where C6 requires it to pass. -/
theorem C6_counterexample :
    InstructionPatch.apply toyEnv
      { functionName := "", address := 4096, origInstructions := [iNop],
        patchedInstructions := [], expectedLength := none } 4096 [0, 191, 3, 3] =
      (Except.error (PatchError.verificationTextMismatch "nop" "nop "), [0, 191, 3, 3]) := rfl

/-- C6 (amended): pre-image verification compares each disassembled
instruction against the declared text using `mnemonic ++ " " ++ operands`
unconditionally — even when the operand string is empty — so a declared
operand-less original passes only when its declared text itself carries
the trailing space; the mnemonic-alone canonical rule is applied only to
the validation of assembled replacement instructions. -/
theorem C6_preimage_space_join (env : ApplyEnv) (p : InstructionPatch) (base : Nat)
    (data : List Nat) (e : Instr) (a : CsInsn)
    (h1 : p.origInstructions = [e])
    (h2 : actualOrigInstructions env p base data = [a]) :
    InstructionPatch.apply env p base data =
      (Except.error (PatchError.verificationTextMismatch e.value
        (a.mnemonic ++ " " ++ a.opStr)), data) ∨
    a.mnemonic ++ " " ++ a.opStr = e.value := by
  by_cases hj : a.mnemonic ++ " " ++ a.opStr = e.value
  · exact Or.inr hj
  · left
    simp only [InstructionPatch.apply, h1, h2]
    rw [if_neg (by simp)]
    simp only [verifyOrig, if_neg hj]

/-- Witness for C6 (amended): the concrete operand-less scenario, where the
declared `"nop"` differs from the space-joined `"nop "` and apply fails
with exactly that mismatch. -/
theorem C6_witness :
    InstructionPatch.apply toyEnv
      { functionName := "", address := 4096, origInstructions := [iNop],
        patchedInstructions := [], expectedLength := none } 4096 [0, 191, 3, 3] =
      (Except.error (PatchError.verificationTextMismatch iNop.value
        ("nop" ++ " " ++ "")), [0, 191, 3, 3]) ∨
    "nop" ++ " " ++ "" = iNop.value :=
  C6_preimage_space_join toyEnv
    { functionName := "", address := 4096, origInstructions := [iNop],
      patchedInstructions := [], expectedLength := none } 4096 [0, 191, 3, 3]
    iNop { mnemonic := "nop", opStr := "" } rfl rfl

/-- Counterexample to C10 as stated: an `InstructionPatch` with an empty
replacement list and declared expected length 2 fails the length check
(expected 2, got 0) while the buffer is exactly in its pre-apply state, so
a length-mismatch failure CAN leave the buffer unmodified. -/
theorem C10_counterexample :
    InstructionPatch.apply toyEnv
      { functionName := "", address := 4096, origInstructions := [],
        patchedInstructions := [], expectedLength := some 2 } 4096 [5, 6, 7] =
      (Except.error (PatchError.lengthMismatch 2 0), [5, 6, 7]) := rfl

/-- C10 (amended): when an `InstructionPatch` fails its declared-total-length
check, the error is raised only after the entire replacement loop has
completed, so at the moment of failure every replacement instruction's
assembled bytes have already been written into the buffer; the buffer may
nonetheless coincide with its pre-apply state (for instance when the
replacement list is empty). -/
theorem C10_length_failure_after_writes (env : ApplyEnv) (p : InstructionPatch) (base : Nat)
    (data : List Nat) (k L : Nat)
    (hCount : (actualOrigInstructions env p base data).length = p.origInstructions.length)
    (hText : verifyOrig (actualOrigInstructions env p base data) p.origInstructions = none)
    (hRep : replacementsOk env p.address p.patchedInstructions = true)
    (hOff : resolveOffset env.macho p.address base = ((k : Nat) : Int))
    (hLen : k + (chainBytes env p.address p.patchedInstructions).length ≤ data.length)
    (hEL : p.expectedLength = some L) (hNZ : L ≠ 0)
    (hNE : (chainBytes env p.address p.patchedInstructions).length ≠ L) :
    InstructionPatch.apply env p base data =
      (Except.error
        (PatchError.lengthMismatch L (chainBytes env p.address p.patchedInstructions).length),
       writeAt data k (chainBytes env p.address p.patchedInstructions)) := by
  rw [apply_post_verification env p base data k hCount hText hRep hOff hLen]
  rw [hEL]
  simp [hNZ, hNE]

/-- Witness for C10 (amended): a length-mismatch failure (expected 7, got
2) with the single replacement's assembled bytes already present in the
returned buffer. -/
theorem C10_witness :
    InstructionPatch.apply toyEnv
      { functionName := "", address := 4096, origInstructions := [],
        patchedInstructions := [iMov], expectedLength := some 7 } 4096 [0, 0, 0, 0, 0] =
      (Except.error (PatchError.lengthMismatch 7 2), [1, 2, 0, 0, 0]) :=
  (C10_length_failure_after_writes toyEnv
    { functionName := "", address := 4096, origInstructions := [],
      patchedInstructions := [iMov], expectedLength := some 7 } 4096 [0, 0, 0, 0, 0] 0 7
    rfl rfl (by decide) rfl (by decide) rfl (by decide) (by decide)).trans rfl

/-- C7: a `PatchSet` applies each member in declaration order to the same
buffer, base address and container: the list case of `Patch.applyList`
sequences each member's `apply` result into the next member's input;
consequently, for two member `BlobPatch`es with in-bounds writes, the
composite result is the second write applied to the buffer produced by the
first, and every byte in the second patch's range equals the second
patch's payload. -/
theorem C7_patchset_in_order (env : ApplyEnv) (nm : String) (b1 b2 : BlobPatch) (base : Nat)
    (data : List Nat) (k1 k2 : Nat)
    (h1 : (b1.address : Int) - (base : Int) = ((k1 : Nat) : Int))
    (h2 : (b2.address : Int) - (base : Int) = ((k2 : Nat) : Int))
    (hk1 : k1 < data.length) (hk2 : k2 < data.length)
    (hl1 : k1 + b1.newContent.length ≤ data.length)
    (hl2 : k2 + b2.newContent.length ≤ data.length) :
    (∀ (q : Patch) (qs : List Patch) (d : List Nat),
      Patch.applyList env base (q :: qs) d =
        match Patch.applyP env base q d with
        | (Except.ok _, d2) => Patch.applyList env base qs d2
        | (Except.error err, d2) => (Except.error err, d2)) ∧
    Patch.applyP env base (Patch.patchSet nm [Patch.blob b1, Patch.blob b2]) data =
      (Except.ok (), writeAt (writeAt data k1 b1.newContent) k2 b2.newContent) ∧
    (∀ j, j < b2.newContent.length →
      (writeAt (writeAt data k1 b1.newContent) k2 b2.newContent)[k2 + j]? =
        b2.newContent[j]?) := by
  have hlen1 : (writeAt data k1 b1.newContent).length = data.length :=
    length_writeAt data b1.newContent k1 hl1
  have e1 := BlobPatch_apply_in_range env b1 base data k1 h1 hk1 hl1
  have e2 := BlobPatch_apply_in_range env b2 base (writeAt data k1 b1.newContent) k2 h2
    (by omega) (by omega)
  refine ⟨fun q qs d => rfl, ?_, ?_⟩
  · simp only [Patch.applyP, Patch.applyList, e1, e2]
  · intro j hj
    exact writeAt_overlap (writeAt data k1 b1.newContent) b2.newContent k2 j (by omega) hj

/-- Witness for C7: two overlapping blob patches over a 5-byte buffer; the
final overlap bytes are the second patch's payload. -/
theorem C7_witness :
    Patch.applyP toyEnv 0
        (Patch.patchSet "w" [Patch.blob { address := 1, newContent := [7, 7, 7] },
          Patch.blob { address := 2, newContent := [8, 8] }]) [0, 0, 0, 0, 0] =
      (Except.ok (), [0, 7, 8, 8, 0]) ∧
    [0, 7, 8, 8, 0][2 + 0]? = some 8 ∧ [0, 7, 8, 8, 0][2 + 1]? = some 8 :=
  ⟨((C7_patchset_in_order toyEnv "w" { address := 1, newContent := [7, 7, 7] }
      { address := 2, newContent := [8, 8] } 0 [0, 0, 0, 0, 0] 1 2 rfl rfl (by decide)
      (by decide) (by decide) (by decide)).2.1).trans rfl,
   rfl, rfl⟩

/-- C8: for every `DmgPatchSet.apply` whose resize and mount both succeed,
the mount is detached on every exit path from the mount scope — the event
trace ends with the detach both on normal completion and when a member
filesystem patch fails partway through, in which case the member's
failure is propagated as the overall result (after the detach). -/
theorem C8_detach_on_exit (env : DmgEnv) (ps : DmgPatchSet) (data : List Nat)
    (hr : env.resizeOk = true) (ha : env.attachOk = true) :
    ((DmgPatchSet.apply env ps data).2.2.getLast? = some DmgEvent.detach) ∧
    ∀ e, (runDmgPatches ps.patches data 0).1 = Except.error e →
      (DmgPatchSet.apply env ps data).1 = Except.error e := by
  have hr' : ¬ (env.resizeOk = false) := by simp [hr]
  have ha' : ¬ (env.attachOk = false) := by simp [ha]
  simp only [DmgPatchSet.apply, if_neg hr', if_neg ha']
  cases hrun : (runDmgPatches ps.patches data 0).1 with
  | ok fs2 =>
    refine ⟨?_, ?_⟩
    · show (DmgEvent.attach :: (runDmgPatches ps.patches data 0).2 ++
        [DmgEvent.detach]).getLast? = some DmgEvent.detach
      exact List.getLast?_concat _
    · intro e he
      exact absurd he (by simp)
  | error e2 =>
    refine ⟨?_, ?_⟩
    · show (DmgEvent.attach :: (runDmgPatches ps.patches data 0).2 ++
        [DmgEvent.detach]).getLast? = some DmgEvent.detach
      exact List.getLast?_concat _
    · intro e he
      injection he with h3
      subst h3
      rfl

/-- Witness for C8: one member patch that fails; the trace still ends with
the detach and the member's failure is the overall result. -/
theorem C8_witness :
    ((DmgPatchSet.apply { resizeOk := true, attachOk := true }
        { patches := [{ run := fun _ => Except.error "boom" }] } [1, 2]).2.2.getLast? =
      some DmgEvent.detach) ∧
    (DmgPatchSet.apply { resizeOk := true, attachOk := true }
        { patches := [{ run := fun _ => Except.error "boom" }] } [1, 2]).1 =
      Except.error (DmgError.patchFailed "boom") :=
  ⟨(C8_detach_on_exit { resizeOk := true, attachOk := true }
      { patches := [{ run := fun _ => Except.error "boom" }] } [1, 2] rfl rfl).1,
   (C8_detach_on_exit { resizeOk := true, attachOk := true }
      { patches := [{ run := fun _ => Except.error "boom" }] } [1, 2] rfl rfl).2
    (DmgError.patchFailed "boom") rfl⟩

/-- C9: for every `DmgPatchSet.apply`, if the resize succeeds but mounting
the scratch disk image fails, the call fails with the mount error and the
caller's byte buffer is left unmodified; moreover on EVERY failing outcome
of `apply` (any environment) the buffer is left unmodified, since the
wholesale overwrite from the scratch file happens only after the mount
scope exits normally. -/
theorem C9_mount_failure (env : DmgEnv) (ps : DmgPatchSet) (data : List Nat)
    (hr : env.resizeOk = true) (ha : env.attachOk = false) :
    DmgPatchSet.apply env ps data = (Except.error DmgError.mountError, data, []) ∧
    ∀ (env2 : DmgEnv) (e : DmgError), (DmgPatchSet.apply env2 ps data).1 = Except.error e →
      (DmgPatchSet.apply env2 ps data).2.1 = data := by
  constructor
  · simp [DmgPatchSet.apply, hr, ha]
  · intro env2 e he
    by_cases h2r : env2.resizeOk = false
    · simp [DmgPatchSet.apply, h2r]
    by_cases h2a : env2.attachOk = false
    · simp [DmgPatchSet.apply, h2r, h2a]
    simp only [DmgPatchSet.apply, if_neg h2r, if_neg h2a]
    cases hrun : (runDmgPatches ps.patches data 0).1 with
    | ok fs2 =>
      exfalso
      simp [DmgPatchSet.apply, if_neg h2r, if_neg h2a, hrun] at he
    | error e2 => rfl

/-- Witness for C9: mount failure leaves the 1-byte buffer untouched, and a
member-patch failure under a successful mount also leaves it untouched. -/
theorem C9_witness :
    DmgPatchSet.apply { resizeOk := true, attachOk := false }
        { patches := [{ run := fun _ => Except.error "x" }] } [3] =
      (Except.error DmgError.mountError, [3], []) ∧
    (DmgPatchSet.apply { resizeOk := true, attachOk := true }
        { patches := [{ run := fun _ => Except.error "x" }] } [3]).2.1 = [3] :=
  ⟨(C9_mount_failure { resizeOk := true, attachOk := false }
      { patches := [{ run := fun _ => Except.error "x" }] } [3] rfl rfl).1,
   (C9_mount_failure { resizeOk := true, attachOk := false }
      { patches := [{ run := fun _ => Except.error "x" }] } [3] rfl rfl).2
    { resizeOk := true, attachOk := true } (DmgError.patchFailed "x") rfl⟩

/-- Witness for C2 (amended): two `mov r0, r1` replacements are written
contiguously at the resolved offset and application succeeds. -/
theorem C2_witness :
    InstructionPatch.apply toyEnv
      { functionName := "", address := 4096, origInstructions := [],
        patchedInstructions := [iMov, iMov], expectedLength := none } 4096
      [0, 0, 0, 0, 0, 0] =
      (Except.ok (), [1, 2, 1, 2, 0, 0]) :=
  (C2_replacements_written toyEnv
    { functionName := "", address := 4096, origInstructions := [],
      patchedInstructions := [iMov, iMov], expectedLength := none } 4096
    [0, 0, 0, 0, 0, 0] 0 rfl rfl (by decide) rfl (by decide) (Or.inl rfl)).trans rfl

